import Mathlib

/-!
# Verification of the generative-replay engine (TD3-master)

Shallow embedding of `src/utils.py` (the `RBM_GR` and `GenerativeReplay`
classes) and of the accumulation/training loop in `src/main.py`.

Conventions of the embedding:
* torch float tensors are modelled over `ℚ` (exact arithmetic; the spec's
  "within floating-point tolerance" becomes exact equality over `ℚ`);
* a 2-D tensor is a `List` of rows, a row is a `List ℚ` of its columns;
* the transcendental kernels that have no exact rational counterpart
  (`torch.sigmoid`, `F.softplus`, `torch.tanh`) are passed in as explicit
  function parameters, and stochastic draws (`bernoulli`, `randn`,
  `randperm`) are passed in as explicit oracle arguments, so every
  definition stays computable;
* in-place tensor mutation (`sub_`, `div_`, `mul_`, `add_`, `round_`) is
  modelled twice: as pure per-column value maps, and as store-passing
  functions over an explicit heap of tensors for the aliasing claims.
-/

set_option maxHeartbeats 1000000

/-- One row of a transition tensor: the 9 columns
`state0, state1, state2, action, next0, next1, next2, reward, done`. -/
abbrev Row := List ℚ

/-- A 2-D tensor: a list of rows. -/
abbrev Mat := List Row

/-- Apply a column-indexed scalar map to a row, the first element being at
column `j0`.  This models a chain of per-column in-place tensor operations
`x[:, j].op_(...)` acting on every column of a 2-d tensor, viewed on one row. -/
def mapCols (f : ℕ → ℚ → ℚ) : ℕ → Row → Row
  | _, [] => []
  | j, x :: xs => f j x :: mapCols f (j + 1) xs

theorem mapCols_length (f : ℕ → ℚ → ℚ) : ∀ (j : ℕ) (xs : Row),
    (mapCols f j xs).length = xs.length
  | _, [] => rfl
  | j, _ :: xs => by simp [mapCols, mapCols_length f (j + 1) xs]

/-- The nine fields of one transition record (`state`, `action`,
`next_state`, `reward`, `done`), as concatenated by `src/main.py` line 207. -/
structure Transition where
  s0 : ℚ
  s1 : ℚ
  s2 : ℚ
  a : ℚ
  n0 : ℚ
  n1 : ℚ
  n2 : ℚ
  r : ℚ
  d : ℚ

/-- The 9-column row a transition occupies in the accumulation buffer. -/
def Transition.toRow (t : Transition) : Row :=
  [t.s0, t.s1, t.s2, t.a, t.n0, t.n1, t.n2, t.r, t.d]

/-- The `RBM_GR` class of `src/utils.py` (lines 164-278): a restricted
Boltzmann machine over 9-wide transition rows.  `vb`, `hb`, `W` are the
parameters `self.v`, `self.h`, `self.W`. -/
structure RBM_GR where
  nVis : ℕ
  nHid : ℕ
  k : ℕ
  vb : Fin nVis → ℚ
  hb : Fin nHid → ℚ
  W : Fin nHid → Fin nVis → ℚ
  action_shape : ℕ
  state_shape : ℕ
  feature_size : ℕ
  action_low : ℚ
  action_high : ℚ
  state_low : Fin 3 → ℚ
  state_high : Fin 3 → ℚ
  reward_low : ℚ
  reward_high : ℚ

/-- `RBM_GR.__init__` (`src/utils.py` lines 172-189).  The source draws the
initial parameters from `torch.randn`; those three draws are passed in as
the arguments `vb0`, `hb0`, `W0`.  Exactly as in the source, the arguments
are stored without any validation: bounds are not compared, and
`feature_size = action_shape + 2*state_shape + 2` is never checked against
`n_vis`. -/
def RBM_GR.init (action_shape state_shape : ℕ) (action_low action_high : ℚ)
    (state_low state_high : Fin 3 → ℚ) (n_vis n_hid k : ℕ)
    (vb0 : Fin n_vis → ℚ) (hb0 : Fin n_hid → ℚ)
    (W0 : Fin n_hid → Fin n_vis → ℚ) : RBM_GR where
  nVis := n_vis
  nHid := n_hid
  k := k
  vb := vb0
  hb := hb0
  W := W0
  action_shape := action_shape
  state_shape := state_shape
  feature_size := action_shape + 2 * state_shape + 2
  action_low := action_low
  action_high := action_high
  state_low := state_low
  state_high := state_high
  reward_low := -20
  reward_high := 0

/-- One column of `RBM_GR.normalise` (`src/utils.py` lines 241-250):
`x[:, j].sub_(low).div_(high - low)` for columns 0-7; column 8 is not
touched by the source. -/
def ncolRBM (m : RBM_GR) (j : ℕ) (x : ℚ) : ℚ :=
  if j = 0 then (x - m.state_low 0) / (m.state_high 0 - m.state_low 0)
  else if j = 1 then (x - m.state_low 1) / (m.state_high 1 - m.state_low 1)
  else if j = 2 then (x - m.state_low 2) / (m.state_high 2 - m.state_low 2)
  else if j = 3 then (x - m.action_low) / (m.action_high - m.action_low)
  else if j = 4 then (x - m.state_low 0) / (m.state_high 0 - m.state_low 0)
  else if j = 5 then (x - m.state_low 1) / (m.state_high 1 - m.state_low 1)
  else if j = 6 then (x - m.state_low 2) / (m.state_high 2 - m.state_low 2)
  else if j = 7 then (x - m.reward_low) / (m.reward_high - m.reward_low)
  else x

/-- One column of `RBM_GR.descale` (`src/utils.py` lines 252-262):
`x[:, j].mul_(high - low).add_(low)` for columns 0-7; column 8 is not
touched by the source (in particular it is not rounded). -/
def dcolRBM (m : RBM_GR) (j : ℕ) (x : ℚ) : ℚ :=
  if j = 0 then x * (m.state_high 0 - m.state_low 0) + m.state_low 0
  else if j = 1 then x * (m.state_high 1 - m.state_low 1) + m.state_low 1
  else if j = 2 then x * (m.state_high 2 - m.state_low 2) + m.state_low 2
  else if j = 3 then x * (m.action_high - m.action_low) + m.action_low
  else if j = 4 then x * (m.state_high 0 - m.state_low 0) + m.state_low 0
  else if j = 5 then x * (m.state_high 1 - m.state_low 1) + m.state_low 1
  else if j = 6 then x * (m.state_high 2 - m.state_low 2) + m.state_low 2
  else if j = 7 then x * (m.reward_high - m.reward_low) + m.reward_low
  else x

/-- The values `RBM_GR.normalise` leaves in one row of its argument. -/
def RBM_GR.normaliseRow (m : RBM_GR) (xs : Row) : Row :=
  mapCols (ncolRBM m) 0 xs

/-- The values `RBM_GR.descale` leaves in one row of its argument. -/
def RBM_GR.descaleRow (m : RBM_GR) (xs : Row) : Row :=
  mapCols (dcolRBM m) 0 xs

/-- The values `RBM_GR.normalise` leaves in its full 2-d argument. -/
def RBM_GR.normalise (m : RBM_GR) (x : Mat) : Mat :=
  x.map m.normaliseRow

/-- The values `RBM_GR.descale` leaves in its full 2-d argument. -/
def RBM_GR.descale (m : RBM_GR) (x : Mat) : Mat :=
  x.map m.descaleRow

/-- The `GenerativeReplay` (VAE) class of `src/utils.py` (lines 60-161).
The encoder is `Linear(feature_size, h_dim) ∘ LeakyReLU(0.2) ∘
Linear(h_dim, 2*z_dim)` and the decoder `Linear(z_dim, h_dim) ∘ ReLU ∘
Linear(h_dim, feature_size) ∘ Tanh`; their weight matrices and bias
vectors are the `e1W`..`d2b` fields. -/
structure GenerativeReplay where
  action_shape : ℕ
  state_shape : ℕ
  feature_size : ℕ
  action_low : ℚ
  action_high : ℚ
  state_low : Fin 3 → ℚ
  state_high : Fin 3 → ℚ
  reward_low : ℚ
  reward_high : ℚ
  h_dim : ℕ
  z_dim : ℕ
  e1W : Fin h_dim → Fin feature_size → ℚ
  e1b : Fin h_dim → ℚ
  e2W : Fin (z_dim * 2) → Fin h_dim → ℚ
  e2b : Fin (z_dim * 2) → ℚ
  d1W : Fin h_dim → Fin z_dim → ℚ
  d1b : Fin h_dim → ℚ
  d2W : Fin feature_size → Fin h_dim → ℚ
  d2b : Fin feature_size → ℚ

/-- `GenerativeReplay.__init__` (`src/utils.py` lines 61-87).  As in the
source, `feature_size = action_shape + 2*state_shape + 2`, the reward
bounds are fixed to `[-20, 0]`, and no argument is validated.  The random
initial layer weights are passed in as arguments. -/
def GenerativeReplay.init (action_shape state_shape : ℕ)
    (action_low action_high : ℚ) (state_low state_high : Fin 3 → ℚ)
    (h_dim z_dim : ℕ)
    (e1W0 : Fin h_dim → Fin (action_shape + 2 * state_shape + 2) → ℚ)
    (e1b0 : Fin h_dim → ℚ)
    (e2W0 : Fin (z_dim * 2) → Fin h_dim → ℚ) (e2b0 : Fin (z_dim * 2) → ℚ)
    (d1W0 : Fin h_dim → Fin z_dim → ℚ) (d1b0 : Fin h_dim → ℚ)
    (d2W0 : Fin (action_shape + 2 * state_shape + 2) → Fin h_dim → ℚ)
    (d2b0 : Fin (action_shape + 2 * state_shape + 2) → ℚ) :
    GenerativeReplay where
  action_shape := action_shape
  state_shape := state_shape
  feature_size := action_shape + 2 * state_shape + 2
  action_low := action_low
  action_high := action_high
  state_low := state_low
  state_high := state_high
  reward_low := -20
  reward_high := 0
  h_dim := h_dim
  z_dim := z_dim
  e1W := e1W0
  e1b := e1b0
  e2W := e2W0
  e2b := e2b0
  d1W := d1W0
  d1b := d1b0
  d2W := d2W0
  d2b := d2b0

/-- `torch.round` on an exact rational: round to the nearest integer,
ties to the even integer (IEEE round-half-to-even, which is what
`Tensor.round_` implements). -/
def roundHalfEven (q : ℚ) : ℚ :=
  if q - ⌊q⌋ < 1 / 2 then (⌊q⌋ : ℚ)
  else if 1 / 2 < q - ⌊q⌋ then (⌊q⌋ + 1 : ℤ)
  else if ⌊q⌋ % 2 = 0 then (⌊q⌋ : ℚ) else (⌊q⌋ + 1 : ℤ)

/-- One column of `GenerativeReplay.normalise` (`src/utils.py` lines
89-99): `x[:, j].sub_(low).div_(high - low).mul_(2.0).sub_(1.0)`; for
column 8 (the done flag) the source uses `low = 0.0`, `high = 1.0`. -/
def ncolVAE (g : GenerativeReplay) (j : ℕ) (x : ℚ) : ℚ :=
  if j = 0 then (x - g.state_low 0) / (g.state_high 0 - g.state_low 0) * 2 - 1
  else if j = 1 then (x - g.state_low 1) / (g.state_high 1 - g.state_low 1) * 2 - 1
  else if j = 2 then (x - g.state_low 2) / (g.state_high 2 - g.state_low 2) * 2 - 1
  else if j = 3 then (x - g.action_low) / (g.action_high - g.action_low) * 2 - 1
  else if j = 4 then (x - g.state_low 0) / (g.state_high 0 - g.state_low 0) * 2 - 1
  else if j = 5 then (x - g.state_low 1) / (g.state_high 1 - g.state_low 1) * 2 - 1
  else if j = 6 then (x - g.state_low 2) / (g.state_high 2 - g.state_low 2) * 2 - 1
  else if j = 7 then (x - g.reward_low) / (g.reward_high - g.reward_low) * 2 - 1
  else if j = 8 then (x - 0) / 1 * 2 - 1
  else x

/-- One column of `GenerativeReplay.descale` (`src/utils.py` lines
101-112): `x[:, j].add_(1.0).div_(2.0).mul_(high - low).add_(low)` for
columns 0-7, and `x[:, 8].add_(1.0).div_(2.0).round_()` for column 8. -/
def dcolVAE (g : GenerativeReplay) (j : ℕ) (x : ℚ) : ℚ :=
  if j = 0 then (x + 1) / 2 * (g.state_high 0 - g.state_low 0) + g.state_low 0
  else if j = 1 then (x + 1) / 2 * (g.state_high 1 - g.state_low 1) + g.state_low 1
  else if j = 2 then (x + 1) / 2 * (g.state_high 2 - g.state_low 2) + g.state_low 2
  else if j = 3 then (x + 1) / 2 * (g.action_high - g.action_low) + g.action_low
  else if j = 4 then (x + 1) / 2 * (g.state_high 0 - g.state_low 0) + g.state_low 0
  else if j = 5 then (x + 1) / 2 * (g.state_high 1 - g.state_low 1) + g.state_low 1
  else if j = 6 then (x + 1) / 2 * (g.state_high 2 - g.state_low 2) + g.state_low 2
  else if j = 7 then (x + 1) / 2 * (g.reward_high - g.reward_low) + g.reward_low
  else if j = 8 then roundHalfEven ((x + 1) / 2)
  else x

/-- The values `GenerativeReplay.normalise` leaves in one row. -/
def GenerativeReplay.normaliseRow (g : GenerativeReplay) (xs : Row) : Row :=
  mapCols (ncolVAE g) 0 xs

/-- The values `GenerativeReplay.descale` leaves in one row. -/
def GenerativeReplay.descaleRow (g : GenerativeReplay) (xs : Row) : Row :=
  mapCols (dcolVAE g) 0 xs

/-- The values `GenerativeReplay.normalise` leaves in its 2-d argument. -/
def GenerativeReplay.normalise (g : GenerativeReplay) (x : Mat) : Mat :=
  x.map g.normaliseRow

/-- The values `GenerativeReplay.descale` leaves in its 2-d argument. -/
def GenerativeReplay.descale (g : GenerativeReplay) (x : Mat) : Mat :=
  x.map g.descaleRow

/-- The bounds stored by an `RBM_GR` are well-formed (spec §3: `high > low`
for every field). -/
def RBM_GR.validBounds (m : RBM_GR) : Prop :=
  (∀ i : Fin 3, m.state_low i < m.state_high i) ∧
    m.action_low < m.action_high ∧ m.reward_low < m.reward_high

/-- The bounds stored by a `GenerativeReplay` are well-formed. -/
def GenerativeReplay.validBounds (g : GenerativeReplay) : Prop :=
  (∀ i : Fin 3, g.state_low i < g.state_high i) ∧
    g.action_low < g.action_high ∧ g.reward_low < g.reward_high

/-- All nine fields of a transition lie inside the bounds configured in an
`RBM_GR`; the done flag is one of `{0, 1}` (spec §3: `done (1 float, 0/1)`). -/
def RBM_GR.inBounds (m : RBM_GR) (t : Transition) : Prop :=
  m.state_low 0 ≤ t.s0 ∧ t.s0 ≤ m.state_high 0 ∧
  m.state_low 1 ≤ t.s1 ∧ t.s1 ≤ m.state_high 1 ∧
  m.state_low 2 ≤ t.s2 ∧ t.s2 ≤ m.state_high 2 ∧
  m.action_low ≤ t.a ∧ t.a ≤ m.action_high ∧
  m.state_low 0 ≤ t.n0 ∧ t.n0 ≤ m.state_high 0 ∧
  m.state_low 1 ≤ t.n1 ∧ t.n1 ≤ m.state_high 1 ∧
  m.state_low 2 ≤ t.n2 ∧ t.n2 ≤ m.state_high 2 ∧
  m.reward_low ≤ t.r ∧ t.r ≤ m.reward_high ∧
  (t.d = 0 ∨ t.d = 1)

/-- All nine fields of a transition lie inside the bounds configured in a
`GenerativeReplay`; the done flag is one of `{0, 1}`. -/
def GenerativeReplay.inBounds (g : GenerativeReplay) (t : Transition) : Prop :=
  g.state_low 0 ≤ t.s0 ∧ t.s0 ≤ g.state_high 0 ∧
  g.state_low 1 ≤ t.s1 ∧ t.s1 ≤ g.state_high 1 ∧
  g.state_low 2 ≤ t.s2 ∧ t.s2 ≤ g.state_high 2 ∧
  g.action_low ≤ t.a ∧ t.a ≤ g.action_high ∧
  g.state_low 0 ≤ t.n0 ∧ t.n0 ≤ g.state_high 0 ∧
  g.state_low 1 ≤ t.n1 ∧ t.n1 ≤ g.state_high 1 ∧
  g.state_low 2 ≤ t.n2 ∧ t.n2 ≤ g.state_high 2 ∧
  g.reward_low ≤ t.r ∧ t.r ≤ g.reward_high ∧
  (t.d = 0 ∨ t.d = 1)

theorem roundHalfEven_zero : roundHalfEven 0 = 0 := by
  norm_num [roundHalfEven]

theorem roundHalfEven_one : roundHalfEven 1 = 1 := by
  norm_num [roundHalfEven, Int.floor_one]

/-- Round trip of one in-bounds transition row through the RBM (`[0,1]`)
scaling: holds as soon as the bounds are non-degenerate. -/
theorem RBM_roundtrip_row (m : RBM_GR) (t : Transition)
    (hb : m.validBounds) :
    m.descaleRow (m.normaliseRow t.toRow) = t.toRow := by
  obtain ⟨hs, ha, hr⟩ := hb
  have h0 : m.state_high 0 - m.state_low 0 ≠ 0 := sub_ne_zero.mpr (hs 0).ne'
  have h1 : m.state_high 1 - m.state_low 1 ≠ 0 := sub_ne_zero.mpr (hs 1).ne'
  have h2 : m.state_high 2 - m.state_low 2 ≠ 0 := sub_ne_zero.mpr (hs 2).ne'
  have h3 : m.action_high - m.action_low ≠ 0 := sub_ne_zero.mpr ha.ne'
  have h4 : m.reward_high - m.reward_low ≠ 0 := sub_ne_zero.mpr hr.ne'
  simp only [RBM_GR.normaliseRow, RBM_GR.descaleRow, Transition.toRow,
    mapCols, ncolRBM, dcolRBM]
  norm_num
  refine ⟨?_, ?_, ?_, ?_, ?_, ?_, ?_, ?_⟩ <;> field_simp

/-- Round trip of one in-bounds transition row through the VAE (`[-1,1]`)
scaling: needs non-degenerate bounds and a `{0,1}` done flag (the done
column is rounded on the way back). -/
theorem VAE_roundtrip_row (g : GenerativeReplay) (t : Transition)
    (hb : g.validBounds) (hd : t.d = 0 ∨ t.d = 1) :
    g.descaleRow (g.normaliseRow t.toRow) = t.toRow := by
  obtain ⟨hs, ha, hr⟩ := hb
  have h0 : g.state_high 0 - g.state_low 0 ≠ 0 := sub_ne_zero.mpr (hs 0).ne'
  have h1 : g.state_high 1 - g.state_low 1 ≠ 0 := sub_ne_zero.mpr (hs 1).ne'
  have h2 : g.state_high 2 - g.state_low 2 ≠ 0 := sub_ne_zero.mpr (hs 2).ne'
  have h3 : g.action_high - g.action_low ≠ 0 := sub_ne_zero.mpr ha.ne'
  have h4 : g.reward_high - g.reward_low ≠ 0 := sub_ne_zero.mpr hr.ne'
  simp only [GenerativeReplay.normaliseRow, GenerativeReplay.descaleRow,
    Transition.toRow, mapCols, ncolVAE, dcolVAE]
  norm_num
  refine ⟨?_, ?_, ?_, ?_, ?_, ?_, ?_, ?_, ?_⟩
  · field_simp
  · field_simp
  · field_simp
  · field_simp
  · field_simp
  · field_simp
  · field_simp
  · field_simp
  · rcases hd with hd | hd <;> rw [hd] <;> norm_num
      [roundHalfEven_zero, roundHalfEven_one]

/-- What `GenerativeReplay.descale ∘ GenerativeReplay.normalise` leaves in
one transition row: columns 0-7 come back exactly, the done column comes
back rounded. -/
theorem VAE_descale_normalise_row (g : GenerativeReplay) (t : Transition)
    (hb : g.validBounds) :
    g.descaleRow (g.normaliseRow t.toRow) =
      [t.s0, t.s1, t.s2, t.a, t.n0, t.n1, t.n2, t.r, roundHalfEven t.d] := by
  obtain ⟨hs, ha, hr⟩ := hb
  have h0 : g.state_high 0 - g.state_low 0 ≠ 0 := sub_ne_zero.mpr (hs 0).ne'
  have h1 : g.state_high 1 - g.state_low 1 ≠ 0 := sub_ne_zero.mpr (hs 1).ne'
  have h2 : g.state_high 2 - g.state_low 2 ≠ 0 := sub_ne_zero.mpr (hs 2).ne'
  have h3 : g.action_high - g.action_low ≠ 0 := sub_ne_zero.mpr ha.ne'
  have h4 : g.reward_high - g.reward_low ≠ 0 := sub_ne_zero.mpr hr.ne'
  simp only [GenerativeReplay.normaliseRow, GenerativeReplay.descaleRow,
    Transition.toRow, mapCols, ncolVAE, dcolVAE]
  norm_num
  refine ⟨?_, ?_, ?_, ?_, ?_, ?_, ?_, ?_⟩ <;> field_simp

/-- A shared concrete RBM model for witnesses: Pendulum-like shapes,
state and action bounds `[0, 1]`, zero-initialised parameters. -/
def wRBM : RBM_GR :=
  RBM_GR.init 1 3 0 1 (fun _ => 0) (fun _ => 1) 9 3 1
    (fun _ => 0) (fun _ => 0) (fun _ _ => 0)

/-- A shared concrete VAE model for witnesses. -/
def wVAE : GenerativeReplay :=
  GenerativeReplay.init 1 3 0 1 (fun _ => 0) (fun _ => 1) 5 3
    (fun _ _ => 0) (fun _ => 0) (fun _ _ => 0) (fun _ => 0)
    (fun _ _ => 0) (fun _ => 0) (fun _ _ => 0) (fun _ => 0)

/-- A shared concrete in-bounds transition for witnesses. -/
def wTrans : Transition :=
  ⟨1 / 2, 1 / 2, 1 / 2, 1 / 2, 1 / 2, 1 / 2, 1 / 2, -10, 1⟩

/-- **C1.** For every transition batch whose 9 fields all lie inside the
configured `(low, high)` bounds (the done flag being one of `{0,1}` as the
transition data model fixes), `descale (normalise x) = x` exactly over `ℚ`,
for both the RBM variant (normalising to `[0,1]`) and the VAE variant
(normalising to `[-1,1]`). -/
theorem C1_normalise_descale_roundtrip (m : RBM_GR) (g : GenerativeReplay)
    (ts : List Transition) (hbm : m.validBounds) (hbg : g.validBounds)
    (him : ∀ t ∈ ts, m.inBounds t) (hig : ∀ t ∈ ts, g.inBounds t) :
    m.descale (m.normalise (ts.map Transition.toRow)) =
        ts.map Transition.toRow ∧
      g.descale (g.normalise (ts.map Transition.toRow)) =
        ts.map Transition.toRow := by
  constructor
  · simp only [RBM_GR.descale, RBM_GR.normalise, List.map_map]
    apply List.map_congr_left
    intro t _
    exact RBM_roundtrip_row m t hbm
  · simp only [GenerativeReplay.descale, GenerativeReplay.normalise,
      List.map_map]
    apply List.map_congr_left
    intro t ht
    obtain ⟨_, _, _, _, _, _, _, _, _, _, _, _, _, _, _, _, hd⟩ := hig t ht
    exact VAE_roundtrip_row g t ⟨hbg.1, hbg.2.1, hbg.2.2⟩ hd

/-- Witness for C1 at a concrete model and batch. -/
theorem C1_normalise_descale_roundtrip_witness :
    wRBM.descale (wRBM.normalise ([wTrans].map Transition.toRow)) =
        [wTrans].map Transition.toRow ∧
      wVAE.descale (wVAE.normalise ([wTrans].map Transition.toRow)) =
        [wTrans].map Transition.toRow :=
  C1_normalise_descale_roundtrip wRBM wVAE [wTrans]
    (by norm_num [RBM_GR.validBounds, wRBM, RBM_GR.init])
    (by norm_num [GenerativeReplay.validBounds, wVAE, GenerativeReplay.init])
    (by intro t ht
        rw [List.mem_singleton] at ht
        subst ht
        norm_num [RBM_GR.inBounds, wRBM, wTrans, RBM_GR.init])
    (by intro t ht
        rw [List.mem_singleton] at ht
        subst ht
        norm_num [GenerativeReplay.inBounds, wVAE, wTrans,
          GenerativeReplay.init])

/-- **C2, counterexample.**  The claim says `descale` rounds the done-flag
column (column 8) to the nearest of `{0,1}` in both variants.  For the RBM
variant this is false: `RBM_GR.descale` (src/utils.py lines 252-262) never
touches column 8, so a batch whose done column holds `0.3` comes back with
`0.3`, which is neither `0` nor `1`. -/
theorem C2_claim_counterexample :
    ((wRBM.descale [[0, 0, 0, 0, 0, 0, 0, 0, 3 / 10]]).getD 0 []).getD 8 0
        = 3 / 10 ∧
      (3 / 10 : ℚ) ≠ 0 ∧ (3 / 10 : ℚ) ≠ 1 := by
  norm_num [RBM_GR.descale, RBM_GR.descaleRow, wRBM, RBM_GR.init, mapCols,
    dcolRBM]

/-- **C2, amended.**  `descale` inverts `normalise` in both variants; on
the done column (column 8) only the VAE variant rounds — it maps the
column value `x` to `round ((x+1)/2)` (nearest integer, ties to even) —
while the RBM variant returns column 8 unchanged, performing no rounding. -/
theorem C2_descale_inverse_rounding (m : RBM_GR) (g : GenerativeReplay)
    (t : Transition) (hbm : m.validBounds) (hbg : g.validBounds) :
    m.descaleRow (m.normaliseRow t.toRow) = t.toRow ∧
      (m.descaleRow t.toRow).getD 8 0 = t.d ∧
      (∀ j, j < 8 →
        (g.descaleRow (g.normaliseRow t.toRow)).getD j 0 = t.toRow.getD j 0) ∧
      (g.descaleRow t.toRow).getD 8 0 = roundHalfEven ((t.d + 1) / 2) := by
  refine ⟨RBM_roundtrip_row m t hbm, ?_, ?_, ?_⟩
  · simp only [RBM_GR.descaleRow, Transition.toRow, mapCols, dcolRBM]
    norm_num
  · intro j hj
    rw [VAE_descale_normalise_row g t hbg]
    interval_cases j <;> rfl
  · simp only [GenerativeReplay.descaleRow, Transition.toRow, mapCols,
      dcolVAE]
    norm_num

/-- Witness for the amended C2 at a concrete model and transition. -/
theorem C2_descale_inverse_rounding_witness :
    wRBM.descaleRow (wRBM.normaliseRow wTrans.toRow) = wTrans.toRow ∧
      (wRBM.descaleRow wTrans.toRow).getD 8 0 = wTrans.d ∧
      (∀ j, j < 8 →
        (wVAE.descaleRow (wVAE.normaliseRow wTrans.toRow)).getD j 0 =
          wTrans.toRow.getD j 0) ∧
      (wVAE.descaleRow wTrans.toRow).getD 8 0 =
        roundHalfEven ((wTrans.d + 1) / 2) :=
  C2_descale_inverse_rounding wRBM wVAE wTrans
    (by norm_num [RBM_GR.validBounds, wRBM, RBM_GR.init])
    (by norm_num [GenerativeReplay.validBounds, wVAE, GenerativeReplay.init])

/-! ## The in-place (store-passing) view of `normalise`/`descale`

The source implements both functions as chains of in-place tensor
operations (`sub_`, `div_`, `mul_`, `add_`, `round_`) on column views of
the argument, followed by `return x`.  We model the heap explicitly: a
store maps references to tensors, and each function overwrites the tensor
behind the reference it was given and returns that same reference. -/

/-- A heap of 2-d tensors, addressed by references. -/
abbrev Store := ℕ → Mat

/-- Overwrite the tensor behind reference `r`. -/
def storeWrite (σ : Store) (r : ℕ) (x : Mat) : Store :=
  fun i => if i = r then x else σ i

/-- `RBM_GR.normalise` as executed: mutates the argument tensor in place
and returns the reference it was given. -/
def RBM_GR.normaliseM (m : RBM_GR) (σ : Store) (r : ℕ) : Store × ℕ :=
  (storeWrite σ r (m.normalise (σ r)), r)

/-- `RBM_GR.descale` as executed: in-place mutation plus `return x`. -/
def RBM_GR.descaleM (m : RBM_GR) (σ : Store) (r : ℕ) : Store × ℕ :=
  (storeWrite σ r (m.descale (σ r)), r)

/-- `GenerativeReplay.normalise` as executed: in-place plus `return x`. -/
def GenerativeReplay.normaliseM (g : GenerativeReplay) (σ : Store) (r : ℕ) :
    Store × ℕ :=
  (storeWrite σ r (g.normalise (σ r)), r)

/-- `GenerativeReplay.descale` as executed: in-place plus `return x`. -/
def GenerativeReplay.descaleM (g : GenerativeReplay) (σ : Store) (r : ℕ) :
    Store × ℕ :=
  (storeWrite σ r (g.descale (σ r)), r)

/-- **C9.**  In both variants, `normalise` and `descale` mutate their
argument tensor in place and return the very reference they were given:
after the call the caller's buffer holds the transformed values, every
other reference is untouched, and the returned reference aliases the
input. -/
theorem C9_inplace_aliasing (m : RBM_GR) (g : GenerativeReplay)
    (σ : Store) (r r' : ℕ) (hne : r' ≠ r) :
    (m.normaliseM σ r).2 = r ∧
      (m.normaliseM σ r).1 r = m.normalise (σ r) ∧
      (m.normaliseM σ r).1 r' = σ r' ∧
      (m.descaleM σ r).2 = r ∧
      (m.descaleM σ r).1 r = m.descale (σ r) ∧
      (m.descaleM σ r).1 r' = σ r' ∧
      (g.normaliseM σ r).2 = r ∧
      (g.normaliseM σ r).1 r = g.normalise (σ r) ∧
      (g.normaliseM σ r).1 r' = σ r' ∧
      (g.descaleM σ r).2 = r ∧
      (g.descaleM σ r).1 r = g.descale (σ r) ∧
      (g.descaleM σ r).1 r' = σ r' := by
  simp [RBM_GR.normaliseM, RBM_GR.descaleM, GenerativeReplay.normaliseM,
    GenerativeReplay.descaleM, storeWrite, hne]

/-- Witness for C9 at a concrete model, store and pair of references. -/
theorem C9_inplace_aliasing_witness :
    (wRBM.normaliseM (fun _ => []) 0).2 = 0 ∧
      (wRBM.normaliseM (fun _ => []) 0).1 0 =
        wRBM.normalise ((fun (_ : ℕ) => ([] : Mat)) 0) ∧
      (wRBM.normaliseM (fun _ => []) 0).1 1 = (fun (_ : ℕ) => ([] : Mat)) 1 ∧
      (wRBM.descaleM (fun _ => []) 0).2 = 0 ∧
      (wRBM.descaleM (fun _ => []) 0).1 0 =
        wRBM.descale ((fun (_ : ℕ) => ([] : Mat)) 0) ∧
      (wRBM.descaleM (fun _ => []) 0).1 1 = (fun (_ : ℕ) => ([] : Mat)) 1 ∧
      (wVAE.normaliseM (fun _ => []) 0).2 = 0 ∧
      (wVAE.normaliseM (fun _ => []) 0).1 0 =
        wVAE.normalise ((fun (_ : ℕ) => ([] : Mat)) 0) ∧
      (wVAE.normaliseM (fun _ => []) 0).1 1 = (fun (_ : ℕ) => ([] : Mat)) 1 ∧
      (wVAE.descaleM (fun _ => []) 0).2 = 0 ∧
      (wVAE.descaleM (fun _ => []) 0).1 0 =
        wVAE.descale ((fun (_ : ℕ) => ([] : Mat)) 0) ∧
      (wVAE.descaleM (fun _ => []) 0).1 1 = (fun (_ : ℕ) => ([] : Mat)) 1 :=
  C9_inplace_aliasing wRBM wVAE (fun _ => []) 0 1 (by decide)

/-! ## The RBM operations and the generative-model training event

`torch.sigmoid` / `F.softplus` are passed as function parameters
(`sigmoidF`, `softplusF`), and every stochastic draw (`bernoulli`,
`randperm`) is an explicit oracle argument, so the definitions below are
deterministic functions of the source's inputs plus its random draws. -/

/-- `Tensor.bernoulli()`: a draw that is `1` with probability `p`,
decided against the uniform oracle value `u`. -/
def bern (u p : ℚ) : ℚ :=
  if u < p then 1 else 0

/-- `RBM_GR.visible_to_hidden` (`src/utils.py` lines 191-199):
`sigmoid(F.linear(v, W, h)).bernoulli()`.  `coins row unit` is the uniform
draw used for the Bernoulli sample of that hidden unit. -/
def RBM_GR.visible_to_hidden (m : RBM_GR) (sigmoidF : ℚ → ℚ)
    (coins : ℕ → ℕ → ℚ) (v : Mat) : Mat :=
  v.enum.map (fun p =>
    (List.finRange m.nHid).map (fun j =>
      bern (coins p.1 j.val)
        (sigmoidF ((∑ i : Fin m.nVis, m.W j i * p.2.getD i.val 0) + m.hb j))))

/-- `RBM_GR.hidden_to_visible` (`src/utils.py` lines 201-209):
`sigmoid(F.linear(h, W.t(), v)).bernoulli()`. -/
def RBM_GR.hidden_to_visible (m : RBM_GR) (sigmoidF : ℚ → ℚ)
    (coins : ℕ → ℕ → ℚ) (h : Mat) : Mat :=
  h.enum.map (fun p =>
    (List.finRange m.nVis).map (fun j =>
      bern (coins p.1 j.val)
        (sigmoidF ((∑ i : Fin m.nHid, m.W i j * p.2.getD i.val 0) + m.vb j))))

/-- `RBM_GR.free_energy` (`src/utils.py` lines 211-226):
`mean(-sum_j softplus(W·v + h)_j - v·vᵀ_bias)` over the batch. -/
def RBM_GR.free_energy (m : RBM_GR) (softplusF : ℚ → ℚ) (v : Mat) : ℚ :=
  (v.map (fun row =>
      -(∑ j : Fin m.nHid,
          softplusF ((∑ i : Fin m.nVis, m.W j i * row.getD i.val 0) + m.hb j))
        - ∑ i : Fin m.nVis, row.getD i.val 0 * m.vb i)).sum / v.length

/-- The `for _ in range(k)` Gibbs loop of `RBM_GR.forward`: alternately
sample visible then hidden, returning the last visible sample.  The first
argument counts the remaining rounds, the second numbers the rounds so
each call draws fresh Bernoulli coins from the oracles `hC`/`vC`.  For
`k = 0` the source would crash on the unbound `v_gibb`; that case returns
the empty tensor and is never used (`k = 1` in `src/main.py`). -/
def RBM_GR.gibbs (m : RBM_GR) (sigmoidF : ℚ → ℚ)
    (hC vC : ℕ → ℕ → ℕ → ℚ) : ℕ → ℕ → Mat → Mat
  | 0, _, _ => []
  | 1, r, h => m.hidden_to_visible sigmoidF (vC r) h
  | n + 2, r, h =>
      m.gibbs sigmoidF hC vC (n + 1) (r + 1)
        (m.visible_to_hidden sigmoidF (hC (r + 1))
          (m.hidden_to_visible sigmoidF (vC r) h))

/-- `RBM_GR.forward` (`src/utils.py` lines 228-239): infer the hidden
state of `v`, run `k` rounds of block Gibbs sampling, and return the pair
`(v, v_gibb)` — the original input and the final Gibbs visible sample. -/
def RBM_GR.forward (m : RBM_GR) (sigmoidF : ℚ → ℚ)
    (hC vC : ℕ → ℕ → ℕ → ℚ) (v : Mat) : Mat × Mat :=
  (v, m.gibbs sigmoidF hC vC m.k 0
    (m.visible_to_hidden sigmoidF (hC 0) v))

/-- The randomness one inner training iteration consumes: the
`torch.randperm` shuffle (as the reordering it applies to the buffer) and
the Bernoulli coins of the Gibbs chain. -/
structure IterRand where
  perm : Mat → Mat
  hC : ℕ → ℕ → ℕ → ℚ
  vC : ℕ → ℕ → ℕ → ℚ

/-- The state the inner training loop threads: the current model
parameters, the (shuffled-in-place) accumulation buffer, and the number of
`train_op.step()` calls made so far. -/
structure TrainSt where
  model : RBM_GR
  buf : Mat
  optSteps : ℕ

/-- The record of one inner training iteration. -/
structure IterRec where
  shuffled : Mat
  mb : Mat
  vOut : Mat
  vG : Mat
  loss : ℚ

/-- One iteration of the `for i in range(10)` loop of `src/main.py`
(lines 188-198): shuffle the buffer (`train_batch = train_batch[perm]`),
take its first 128 rows, run `forward`, set
`loss = free_energy(v) - free_energy(v_g)`, and call the optimizer once.
`optStep` — the `loss.backward(); train_op.step()` Adam update — is an
oracle parameter (float autograd is outside the rational model); the
iteration invokes it exactly once, counted in `optSteps`. -/
def trainIter (sigmoidF softplusF : ℚ → ℚ)
    (optStep : RBM_GR → Mat → Mat → RBM_GR) (R : IterRand) (s : TrainSt) :
    TrainSt × IterRec :=
  let shuffled := R.perm s.buf
  let mb := shuffled.take 128
  let fwdP := s.model.forward sigmoidF R.hC R.vC mb
  let loss := s.model.free_energy softplusF fwdP.1
    - s.model.free_energy softplusF fwdP.2
  (⟨optStep s.model fwdP.1 fwdP.2, shuffled, s.optSteps + 1⟩,
    ⟨shuffled, mb, fwdP.1, fwdP.2, loss⟩)

/-- One generative-model training event: the `for i in range(10)` inner
loop of `src/main.py`, iterated over the per-iteration randomness
`Rs 0 .. Rs 9`, collecting the iteration records. -/
def trainingEvent (sigmoidF softplusF : ℚ → ℚ)
    (optStep : RBM_GR → Mat → Mat → RBM_GR) (Rs : ℕ → IterRand)
    (s0 : TrainSt) : TrainSt × List IterRec :=
  (List.range 10).foldl
    (fun acc i =>
      let st := trainIter sigmoidF softplusF optStep (Rs i) acc.1
      (st.1, acc.2 ++ [st.2]))
    (s0, [])

/-- **C3.**  Every generative-model training event performs exactly 10
inner iterations (and exactly 10 optimizer steps), and each iteration
shuffles the accumulated buffer, takes the first 128 rows of the shuffled
buffer as the mini-batch `v`, computes `(v, v_gibbs) = forward v` (whose
first component is `v` itself), uses
`loss = free_energy v - free_energy v_gibbs`, and applies exactly one
optimizer step. -/
theorem C3_training_event (sigmoidF softplusF : ℚ → ℚ)
    (optStep : RBM_GR → Mat → Mat → RBM_GR) (Rs : ℕ → IterRand)
    (s0 : TrainSt) :
    (trainingEvent sigmoidF softplusF optStep Rs s0).2.length = 10 ∧
      (trainingEvent sigmoidF softplusF optStep Rs s0).1.optSteps =
        s0.optSteps + 10 ∧
      ∀ (R : IterRand) (s : TrainSt),
        (trainIter sigmoidF softplusF optStep R s).2.shuffled = R.perm s.buf ∧
        (trainIter sigmoidF softplusF optStep R s).2.mb =
          (R.perm s.buf).take 128 ∧
        ((trainIter sigmoidF softplusF optStep R s).2.vOut,
            (trainIter sigmoidF softplusF optStep R s).2.vG) =
          s.model.forward sigmoidF R.hC R.vC
            (trainIter sigmoidF softplusF optStep R s).2.mb ∧
        (trainIter sigmoidF softplusF optStep R s).2.vOut =
          (trainIter sigmoidF softplusF optStep R s).2.mb ∧
        (trainIter sigmoidF softplusF optStep R s).2.loss =
          s.model.free_energy softplusF
              (trainIter sigmoidF softplusF optStep R s).2.vOut
            - s.model.free_energy softplusF
              (trainIter sigmoidF softplusF optStep R s).2.vG ∧
        (trainIter sigmoidF softplusF optStep R s).1.optSteps =
          s.optSteps + 1 :=
  ⟨rfl, rfl, fun _ _ => ⟨rfl, rfl, rfl, rfl, rfl, rfl⟩⟩

/-! ## The accumulation loop of `src/main.py` (lines 150-208)

Per environment step, the loop checks `gr_index >= vae_batch_size`; when
the guard fires it resets the index, optionally (only past the
exploration phase) appends `vae_batch_size/2` sampled synthetic rows,
trains, and reallocates the buffer to zeros; in every step it then writes
the current real transition at the index and increments the index. -/

/-- The command-line configuration the loop reads:
`args.vae_batch_size` (the accumulation capacity, default 500) and
`args.start_timesteps` (the exploration horizon, default 10⁴). -/
structure Cfg where
  vaeBatchSize : ℕ
  startTimesteps : ℕ

/-- The loop state: `gr_index`, `train_batch`, and an instrumentation
counter of how many times the buffer has been reset to zeros. -/
structure AccSt where
  grIndex : ℕ
  trainBatch : Mat
  resetCount : ℕ

/-- What one loop pass did: whether `generative_replay.sample` was
invoked, how many synthetic rows it returned, the combined buffer handed
to the training event, and whether the training/reset branch fired. -/
structure StepInfo where
  sampleCalled : Bool
  syntheticCount : ℕ
  augmented : Mat
  eventFired : Bool

/-- A 9-column row of zeros (`torch.zeros([... , 9])` rows). -/
def zeroRow : Row :=
  List.replicate 9 0

/-- One pass of the accumulation logic (`src/main.py` lines 175-208) for
one real transition `row` at time step `t`.  `sampler n` stands for the
`n` synthetic rows `torch.cat(generative_replay.sample(n), 1)` returns;
the 10-iteration training event run on (the normalisation of) the
combined buffer is `trainingEvent` and does not touch these counters,
since the buffer is reallocated to zeros right after it. -/
def loopStep (cfg : Cfg) (sampler : ℕ → Mat) (t : ℕ) (row : Row)
    (s : AccSt) : AccSt × StepInfo :=
  if s.grIndex ≥ cfg.vaeBatchSize then
    let aug := if t ≥ cfg.startTimesteps
      then s.trainBatch ++ sampler (cfg.vaeBatchSize / 2)
      else s.trainBatch
    let fresh := List.replicate cfg.vaeBatchSize zeroRow
    (⟨0 + 1, fresh.set 0 row, s.resetCount + 1⟩,
      ⟨decide (t ≥ cfg.startTimesteps),
        if t ≥ cfg.startTimesteps then cfg.vaeBatchSize / 2 else 0,
        aug, true⟩)
  else
    (⟨s.grIndex + 1, s.trainBatch.set s.grIndex row, s.resetCount⟩,
      ⟨false, 0, [], false⟩)

/-- Iterate `loopStep` over a sequence of `(t, transition)` inputs. -/
def loopRun (cfg : Cfg) (sampler : ℕ → Mat) (inputs : List (ℕ × Row))
    (s : AccSt) : AccSt :=
  inputs.foldl (fun st p => (loopStep cfg sampler p.1 p.2 st).1) s

/-- The loop's initial state (`src/main.py` lines 150-151):
`train_batch = torch.zeros([vae_batch_size, 9])`, `gr_index = 0`. -/
def initAcc (cfg : Cfg) : AccSt :=
  ⟨0, List.replicate cfg.vaeBatchSize zeroRow, 0⟩

/-- The synthetic sampler used by concrete witnesses: `n` zero rows. -/
def zSampler : ℕ → Mat :=
  fun n => List.replicate n zeroRow

/-- **C4.**  While the exploration phase is active
(`t < start_timesteps`), a loop pass — in particular one that fills the
accumulation buffer and fires the training branch — never invokes
`sample()` on the generative model. -/
theorem C4_no_sampling_during_exploration (cfg : Cfg) (sampler : ℕ → Mat)
    (t : ℕ) (row : Row) (s : AccSt) (h : t < cfg.startTimesteps) :
    (loopStep cfg sampler t row s).2.sampleCalled = false := by
  unfold loopStep
  split
  · simp only [ge_iff_le]
    exact decide_eq_false (Nat.not_le.mpr h)
  · rfl

/-- Witness for C4: a buffer-filling step (`gr_index = capacity`) during
exploration does not call `sample`. -/
theorem C4_no_sampling_during_exploration_witness :
    (loopStep ⟨500, 10000⟩ zSampler 3 zeroRow
        ⟨500, List.replicate 500 zeroRow, 0⟩).2.sampleCalled = false :=
  C4_no_sampling_during_exploration ⟨500, 10000⟩ zSampler 3 zeroRow
    ⟨500, List.replicate 500 zeroRow, 0⟩ (by decide)

/-- **C5, counterexample.**  The claim says the synthetic draw doubles the
buffer's effective size for the cycle.  It does not: with capacity 500 the
combined buffer handed to training has 500 + 500/2 = 750 rows, not
2 · 500 = 1000. -/
theorem C5_claim_counterexample :
    ((loopStep ⟨500, 0⟩ zSampler 0 zeroRow
          ⟨500, List.replicate 500 zeroRow, 0⟩).2.augmented).length = 750 ∧
      (750 : ℕ) ≠ 2 * 500 := by
  constructor
  · norm_num [loopStep, zSampler]
  · decide

/-- **C5, amended.**  After the exploration phase, when the accumulation
index reaches capacity, exactly `capacity/2` synthetic transitions are
drawn from the current generative model and appended to the accumulation
buffer — growing it to `capacity + capacity/2` rows (1.5×, not 2×) for
that cycle only: the state the next cycle starts from is again a
`capacity`-row buffer. -/
theorem C5_synthetic_augmentation (cfg : Cfg) (sampler : ℕ → Mat) (t : ℕ)
    (row : Row) (s : AccSt) (ht : cfg.startTimesteps ≤ t)
    (hidx : cfg.vaeBatchSize ≤ s.grIndex)
    (hlen : s.trainBatch.length = cfg.vaeBatchSize)
    (hsam : ∀ n, (sampler n).length = n) :
    (loopStep cfg sampler t row s).2.sampleCalled = true ∧
      (loopStep cfg sampler t row s).2.syntheticCount =
        cfg.vaeBatchSize / 2 ∧
      (loopStep cfg sampler t row s).2.augmented =
        s.trainBatch ++ sampler (cfg.vaeBatchSize / 2) ∧
      ((loopStep cfg sampler t row s).2.augmented).length =
        cfg.vaeBatchSize + cfg.vaeBatchSize / 2 ∧
      ((loopStep cfg sampler t row s).1.trainBatch).length =
        cfg.vaeBatchSize := by
  simp [loopStep, hidx, ht, hlen, hsam]

/-- Witness for the amended C5 at capacity 500 past exploration. -/
theorem C5_synthetic_augmentation_witness :
    (loopStep ⟨500, 0⟩ zSampler 7 zeroRow
        ⟨500, List.replicate 500 zeroRow, 0⟩).2.sampleCalled = true ∧
      (loopStep ⟨500, 0⟩ zSampler 7 zeroRow
          ⟨500, List.replicate 500 zeroRow, 0⟩).2.syntheticCount = 500 / 2 ∧
      (loopStep ⟨500, 0⟩ zSampler 7 zeroRow
          ⟨500, List.replicate 500 zeroRow, 0⟩).2.augmented =
        List.replicate 500 zeroRow ++ zSampler (500 / 2) ∧
      ((loopStep ⟨500, 0⟩ zSampler 7 zeroRow
          ⟨500, List.replicate 500 zeroRow, 0⟩).2.augmented).length =
        500 + 500 / 2 ∧
      ((loopStep ⟨500, 0⟩ zSampler 7 zeroRow
          ⟨500, List.replicate 500 zeroRow, 0⟩).1.trainBatch).length = 500 :=
  C5_synthetic_augmentation ⟨500, 0⟩ zSampler 7 zeroRow
    ⟨500, List.replicate 500 zeroRow, 0⟩ (by decide) (by decide)
    (by simp only [List.length_replicate]) (fun n => by simp [zSampler])

/-- The index/reset bookkeeping of one loop pass: it depends only on the
previous index and the capacity, never on the time step (i.e. never on
whether the synthetic-augmentation branch fired). -/
theorem loopStep_counters (cfg : Cfg) (sampler : ℕ → Mat) (t : ℕ)
    (row : Row) (s : AccSt) :
    (loopStep cfg sampler t row s).1.grIndex =
        (if cfg.vaeBatchSize ≤ s.grIndex then 1 else s.grIndex + 1) ∧
      (loopStep cfg sampler t row s).1.resetCount =
        (if cfg.vaeBatchSize ≤ s.grIndex then s.resetCount + 1
          else s.resetCount) := by
  by_cases h : cfg.vaeBatchSize ≤ s.grIndex <;> simp [loopStep, h]

/-- Counter invariant of the accumulation loop: if the state looks like
`n ≥ 1` real transitions have been processed (index `n % c + 1`, reset
count `n / c`), then after processing `len` more it looks like `n + len`
have been. -/
theorem loopRun_counters (cfg : Cfg) (hc : 1 ≤ cfg.vaeBatchSize)
    (sampler : ℕ → Mat) :
    ∀ (inputs : List (ℕ × Row)) (n : ℕ) (s : AccSt),
      s.grIndex = n % cfg.vaeBatchSize + 1 →
      s.resetCount = n / cfg.vaeBatchSize →
      (loopRun cfg sampler inputs s).grIndex =
          (n + inputs.length) % cfg.vaeBatchSize + 1 ∧
        (loopRun cfg sampler inputs s).resetCount =
          (n + inputs.length) / cfg.vaeBatchSize := by
  intro inputs
  induction inputs with
  | nil => intro n s hidx hrst; simpa [loopRun] using ⟨hidx, hrst⟩
  | cons p rest ih =>
    intro n s hidx hrst
    have hstep : loopRun cfg sampler (p :: rest) s =
        loopRun cfg sampler rest (loopStep cfg sampler p.1 p.2 s).1 := rfl
    have hmod : n % cfg.vaeBatchSize < cfg.vaeBatchSize :=
      Nat.mod_lt n (by omega)
    obtain ⟨hgi, hrc⟩ := loopStep_counters cfg sampler p.1 p.2 s
    have hlen : n + (p :: rest).length = (n + 1) + rest.length := by
      simp [List.length_cons]; omega
    rw [hstep, hlen]
    by_cases hf : cfg.vaeBatchSize ≤ s.grIndex
    · -- the guard fired: n % c = c - 1, so n + 1 is a multiple of c
      have hceq : cfg.vaeBatchSize = n % cfg.vaeBatchSize + 1 := by
        rw [hidx] at hf; omega
      have hm1 : (n + 1) % cfg.vaeBatchSize = 0 := by
        rw [← Nat.mod_add_mod, ← hceq, Nat.mod_self]
      have hd1 : (n + 1) / cfg.vaeBatchSize = n / cfg.vaeBatchSize + 1 := by
        rw [Nat.succ_div, if_pos (Nat.dvd_of_mod_eq_zero hm1)]
      exact ih (n + 1)
        (loopStep cfg sampler p.1 p.2 s).1
        (by rw [hgi, if_pos hf, hm1])
        (by rw [hrc, if_pos hf, hrst, hd1])
    · -- the guard did not fire: n % c + 1 < c
      have hlt : n % cfg.vaeBatchSize + 1 < cfg.vaeBatchSize := by
        rw [hidx] at hf; omega
      have hm1 : (n + 1) % cfg.vaeBatchSize = n % cfg.vaeBatchSize + 1 := by
        rw [← Nat.mod_add_mod, Nat.mod_eq_of_lt hlt]
      have hd1 : (n + 1) / cfg.vaeBatchSize = n / cfg.vaeBatchSize := by
        rw [Nat.succ_div, if_neg, Nat.add_zero]
        intro hdvd
        rw [Nat.dvd_iff_mod_eq_zero] at hdvd
        omega
      exact ih (n + 1)
        (loopStep cfg sampler p.1 p.2 s).1
        (by rw [hgi, if_neg hf, hidx, hm1])
        (by rw [hrc, if_neg hf, hrst, hd1])

/-- **C6.**  Starting from the fresh buffer, over a run of any length the
accumulation buffer is reset exactly once per `capacity` real transitions
processed — the reset count after `n` transitions is `(n-1)/capacity` —
and this holds whatever the time steps are, i.e. whether or not the
synthetic-augmentation branch fired in any cycle: the counters of a pass
never depend on its time step.  At each reset the buffer is reallocated
to `capacity` zero rows (then the pass's real transition is written at
index 0) and the index restarts from 0 (incremented to 1 by that write). -/
theorem C6_reset_once_per_capacity (cfg : Cfg)
    (hc : 1 ≤ cfg.vaeBatchSize) (sampler : ℕ → Mat)
    (inputs : List (ℕ × Row)) :
    (loopRun cfg sampler inputs (initAcc cfg)).resetCount =
        (inputs.length - 1) / cfg.vaeBatchSize ∧
      (∀ (t : ℕ) (row : Row) (s : AccSt), cfg.vaeBatchSize ≤ s.grIndex →
        (loopStep cfg sampler t row s).1.resetCount = s.resetCount + 1 ∧
        (loopStep cfg sampler t row s).1.trainBatch =
          (List.replicate cfg.vaeBatchSize zeroRow).set 0 row ∧
        (loopStep cfg sampler t row s).1.grIndex = 0 + 1) ∧
      (∀ (t : ℕ) (row : Row) (s : AccSt), s.grIndex < cfg.vaeBatchSize →
        (loopStep cfg sampler t row s).1.resetCount = s.resetCount) ∧
      (∀ (t t' : ℕ) (row : Row) (s : AccSt),
        (loopStep cfg sampler t row s).1.resetCount =
            (loopStep cfg sampler t' row s).1.resetCount ∧
          (loopStep cfg sampler t row s).1.grIndex =
            (loopStep cfg sampler t' row s).1.grIndex) := by
  refine ⟨?_, ?_, ?_, ?_⟩
  · cases inputs with
    | nil => simp [loopRun, initAcc]
    | cons p rest =>
      have hng : ¬ cfg.vaeBatchSize ≤ (initAcc cfg).grIndex := by
        simp [initAcc]; omega
      have hstep : loopRun cfg sampler (p :: rest) (initAcc cfg) =
          loopRun cfg sampler rest
            (loopStep cfg sampler p.1 p.2 (initAcc cfg)).1 := rfl
      obtain ⟨hgi, hrc⟩ := loopStep_counters cfg sampler p.1 p.2 (initAcc cfg)
      have h1 := loopRun_counters cfg hc sampler rest 0
        (loopStep cfg sampler p.1 p.2 (initAcc cfg)).1
        (by rw [hgi, if_neg hng]; simp [initAcc, Nat.zero_mod])
        (by rw [hrc, if_neg hng]; simp [initAcc])
      rw [hstep, h1.2]
      simp [List.length_cons]
  · intro t row s hge
    refine ⟨?_, ?_, ?_⟩ <;> simp [loopStep, hge]
  · intro t row s hlt
    simp [loopStep, Nat.not_le.mpr hlt]
  · intro t t' row s
    obtain ⟨hgi, hrc⟩ := loopStep_counters cfg sampler t row s
    obtain ⟨hgi', hrc'⟩ := loopStep_counters cfg sampler t' row s
    rw [hgi, hgi', hrc, hrc']
    exact ⟨rfl, rfl⟩

/-- Witness for C6: five transitions at capacity 2 yield exactly two
resets, and the concrete instances of the per-step facts. -/
theorem C6_reset_once_per_capacity_witness :
    (loopRun ⟨2, 3⟩ zSampler
          [(0, zeroRow), (1, zeroRow), (2, zeroRow), (3, zeroRow), (4, zeroRow)]
          (initAcc ⟨2, 3⟩)).resetCount =
        (([((0 : ℕ), zeroRow), (1, zeroRow), (2, zeroRow), (3, zeroRow),
            (4, zeroRow)]).length - 1) / 2 ∧
      (∀ (t : ℕ) (row : Row) (s : AccSt), (2 : ℕ) ≤ s.grIndex →
        (loopStep ⟨2, 3⟩ zSampler t row s).1.resetCount = s.resetCount + 1 ∧
        (loopStep ⟨2, 3⟩ zSampler t row s).1.trainBatch =
          (List.replicate 2 zeroRow).set 0 row ∧
        (loopStep ⟨2, 3⟩ zSampler t row s).1.grIndex = 0 + 1) ∧
      (∀ (t : ℕ) (row : Row) (s : AccSt), s.grIndex < 2 →
        (loopStep ⟨2, 3⟩ zSampler t row s).1.resetCount = s.resetCount) ∧
      (∀ (t t' : ℕ) (row : Row) (s : AccSt),
        (loopStep ⟨2, 3⟩ zSampler t row s).1.resetCount =
            (loopStep ⟨2, 3⟩ zSampler t' row s).1.resetCount ∧
          (loopStep ⟨2, 3⟩ zSampler t row s).1.grIndex =
            (loopStep ⟨2, 3⟩ zSampler t' row s).1.grIndex) :=
  C6_reset_once_per_capacity ⟨2, 3⟩ (by decide) zSampler
    [(0, zeroRow), (1, zeroRow), (2, zeroRow), (3, zeroRow), (4, zeroRow)]

/-! ## `sample` of both generative models -/

/-- The five aligned containers both `sample` implementations return. -/
structure SampleOut where
  state : Mat
  action : Mat
  next_state : Mat
  reward : Mat
  done : Mat

/-- The return split shared by both `sample` implementations
(`src/utils.py` lines 155-161 and 272-278): columns `0:3`, column `3`
unsqueezed, columns `4:7`, column `-2` and column `-1` — the latter two
being columns 7 and 8 of a 9-column tensor. -/
def splitResult (result : Mat) : SampleOut where
  state := result.map (fun r => r.take 3)
  action := result.map (fun r => [r.getD 3 0])
  next_state := result.map (fun r => (r.drop 4).take 3)
  reward := result.map (fun r => [r.getD 7 0])
  done := result.map (fun r => [r.getD 8 0])

/-- `RBM_GR.sample` (`src/utils.py` lines 264-278): push the
`torch.randn(batch_size, n_hid)` draw (the oracle `noise`, one row per
sample) through `hidden_to_visible`, denormalise with `descale`, and
split into the five containers. -/
def RBM_GR.sample (m : RBM_GR) (sigmoidF : ℚ → ℚ) (coins : ℕ → ℕ → ℚ)
    (noise : Mat) : SampleOut :=
  splitResult (m.descale (m.hidden_to_visible sigmoidF coins noise))

/-- The decoder of `GenerativeReplay` (`src/utils.py` lines 80-85) on one
latent row: `Linear(z_dim, h_dim)`, `ReLU`, `Linear(h_dim, feature_size)`,
`Tanh` (`tanhF` is the oracle for `torch.tanh`). -/
def GenerativeReplay.decoderRow (g : GenerativeReplay) (tanhF : ℚ → ℚ)
    (z : Fin g.z_dim → ℚ) : Row :=
  (List.finRange g.feature_size).map (fun o =>
    tanhF ((∑ i : Fin g.h_dim,
        g.d2W o i * max 0 ((∑ j : Fin g.z_dim, g.d1W i j * z j) + g.d1b i))
      + g.d2b o))

/-- `GenerativeReplay.sample` (`src/utils.py` lines 147-161): decode the
`torch.randn(batch_size, z_dim)` draw (the oracle `zs`), denormalise with
`descale`, and split into the five containers. -/
def GenerativeReplay.sample (g : GenerativeReplay) (tanhF : ℚ → ℚ)
    (zs : List (Fin g.z_dim → ℚ)) : SampleOut :=
  splitResult (g.descale (zs.map (g.decoderRow tanhF)))

theorem RBM_GR.hidden_to_visible_row_length (m : RBM_GR)
    (sigmoidF : ℚ → ℚ) (coins : ℕ → ℕ → ℚ) (h : Mat) :
    ∀ r ∈ m.hidden_to_visible sigmoidF coins h, r.length = m.nVis := by
  intro r hr
  simp only [RBM_GR.hidden_to_visible, List.mem_map] at hr
  obtain ⟨p, _, rfl⟩ := hr
  simp

theorem RBM_GR.descale_h2v_row_length (m : RBM_GR) (sigmoidF : ℚ → ℚ)
    (coins : ℕ → ℕ → ℚ) (noise : Mat) :
    ∀ r ∈ m.descale (m.hidden_to_visible sigmoidF coins noise),
      r.length = m.nVis := by
  intro r hr
  simp only [RBM_GR.descale, List.mem_map] at hr
  obtain ⟨r₀, hr₀, rfl⟩ := hr
  rw [RBM_GR.descaleRow, mapCols_length]
  exact m.hidden_to_visible_row_length sigmoidF coins noise r₀ hr₀

theorem GenerativeReplay.descale_decoder_row_length (g : GenerativeReplay)
    (tanhF : ℚ → ℚ) (zs : List (Fin g.z_dim → ℚ)) :
    ∀ r ∈ g.descale (zs.map (g.decoderRow tanhF)),
      r.length = g.feature_size := by
  intro r hr
  simp only [GenerativeReplay.descale, List.mem_map] at hr
  obtain ⟨a, ⟨z, _, rfl⟩, rfl⟩ := hr
  rw [GenerativeReplay.descaleRow, mapCols_length]
  simp [GenerativeReplay.decoderRow]

/-- **C7.**  For any `batch_size ≥ 1`, `sample batch_size` on either
generative model returns five containers — each with `batch_size` rows —
whose column widths are `3, 1, 3, 1, 1`, summing to the configured
feature width of 9. -/
theorem C7_sample_partition_widths (m : RBM_GR) (g : GenerativeReplay)
    (sigmoidF tanhF : ℚ → ℚ) (coins : ℕ → ℕ → ℚ) (noise : Mat)
    (zs : List (Fin g.z_dim → ℚ)) (h9 : m.nVis = 9)
    (hf : m.feature_size = 9) (hgf : g.feature_size = 9)
    (hbs : 1 ≤ noise.length) (hzs : 1 ≤ zs.length) :
    ((m.sample sigmoidF coins noise).state.length = noise.length ∧
      (m.sample sigmoidF coins noise).action.length = noise.length ∧
      (m.sample sigmoidF coins noise).next_state.length = noise.length ∧
      (m.sample sigmoidF coins noise).reward.length = noise.length ∧
      (m.sample sigmoidF coins noise).done.length = noise.length) ∧
    ((∀ r ∈ (m.sample sigmoidF coins noise).state, r.length = 3) ∧
      (∀ r ∈ (m.sample sigmoidF coins noise).action, r.length = 1) ∧
      (∀ r ∈ (m.sample sigmoidF coins noise).next_state, r.length = 3) ∧
      (∀ r ∈ (m.sample sigmoidF coins noise).reward, r.length = 1) ∧
      (∀ r ∈ (m.sample sigmoidF coins noise).done, r.length = 1)) ∧
    3 + 1 + 3 + 1 + 1 = m.feature_size ∧
    ((g.sample tanhF zs).state.length = zs.length ∧
      (g.sample tanhF zs).action.length = zs.length ∧
      (g.sample tanhF zs).next_state.length = zs.length ∧
      (g.sample tanhF zs).reward.length = zs.length ∧
      (g.sample tanhF zs).done.length = zs.length) ∧
    ((∀ r ∈ (g.sample tanhF zs).state, r.length = 3) ∧
      (∀ r ∈ (g.sample tanhF zs).action, r.length = 1) ∧
      (∀ r ∈ (g.sample tanhF zs).next_state, r.length = 3) ∧
      (∀ r ∈ (g.sample tanhF zs).reward, r.length = 1) ∧
      (∀ r ∈ (g.sample tanhF zs).done, r.length = 1)) ∧
    3 + 1 + 3 + 1 + 1 = g.feature_size := by
  have hrow := m.descale_h2v_row_length sigmoidF coins noise
  have hgrow := g.descale_decoder_row_length tanhF zs
  refine ⟨⟨?_, ?_, ?_, ?_, ?_⟩, ⟨?_, ?_, ?_, ?_, ?_⟩, by omega,
    ⟨?_, ?_, ?_, ?_, ?_⟩, ⟨?_, ?_, ?_, ?_, ?_⟩, by omega⟩
  · simp [RBM_GR.sample, splitResult, RBM_GR.descale,
      RBM_GR.hidden_to_visible]
  · simp [RBM_GR.sample, splitResult, RBM_GR.descale,
      RBM_GR.hidden_to_visible]
  · simp [RBM_GR.sample, splitResult, RBM_GR.descale,
      RBM_GR.hidden_to_visible]
  · simp [RBM_GR.sample, splitResult, RBM_GR.descale,
      RBM_GR.hidden_to_visible]
  · simp [RBM_GR.sample, splitResult, RBM_GR.descale,
      RBM_GR.hidden_to_visible]
  · intro r hr
    simp only [RBM_GR.sample, splitResult, List.mem_map] at hr
    obtain ⟨r₀, hr₀, rfl⟩ := hr
    have := hrow r₀ hr₀
    simp [List.length_take, this, h9]
  · intro r hr
    simp only [RBM_GR.sample, splitResult, List.mem_map] at hr
    obtain ⟨r₀, _, rfl⟩ := hr
    rfl
  · intro r hr
    simp only [RBM_GR.sample, splitResult, List.mem_map] at hr
    obtain ⟨r₀, hr₀, rfl⟩ := hr
    have := hrow r₀ hr₀
    simp [List.length_take, List.length_drop, this, h9]
  · intro r hr
    simp only [RBM_GR.sample, splitResult, List.mem_map] at hr
    obtain ⟨r₀, _, rfl⟩ := hr
    rfl
  · intro r hr
    simp only [RBM_GR.sample, splitResult, List.mem_map] at hr
    obtain ⟨r₀, _, rfl⟩ := hr
    rfl
  · simp [GenerativeReplay.sample, splitResult, GenerativeReplay.descale]
  · simp [GenerativeReplay.sample, splitResult, GenerativeReplay.descale]
  · simp [GenerativeReplay.sample, splitResult, GenerativeReplay.descale]
  · simp [GenerativeReplay.sample, splitResult, GenerativeReplay.descale]
  · simp [GenerativeReplay.sample, splitResult, GenerativeReplay.descale]
  · intro r hr
    simp only [GenerativeReplay.sample, splitResult, List.mem_map] at hr
    obtain ⟨r₀, hr₀, rfl⟩ := hr
    have := hgrow r₀ hr₀
    simp [List.length_take, this, hgf]
  · intro r hr
    simp only [GenerativeReplay.sample, splitResult, List.mem_map] at hr
    obtain ⟨r₀, _, rfl⟩ := hr
    rfl
  · intro r hr
    simp only [GenerativeReplay.sample, splitResult, List.mem_map] at hr
    obtain ⟨r₀, hr₀, rfl⟩ := hr
    have := hgrow r₀ hr₀
    simp [List.length_take, List.length_drop, this, hgf]
  · intro r hr
    simp only [GenerativeReplay.sample, splitResult, List.mem_map] at hr
    obtain ⟨r₀, _, rfl⟩ := hr
    rfl
  · intro r hr
    simp only [GenerativeReplay.sample, splitResult, List.mem_map] at hr
    obtain ⟨r₀, _, rfl⟩ := hr
    rfl

/-- A one-element latent batch for the VAE witness. -/
def vaeZ1 : List (Fin wVAE.z_dim → ℚ) :=
  [fun _ => 0]

/-- Witness for C7: both models sampled at batch size 1. -/
theorem C7_sample_partition_widths_witness :
    ((wRBM.sample id (fun _ _ => 1) [[0, 0, 0]]).state.length = 1 ∧
      (wRBM.sample id (fun _ _ => 1) [[0, 0, 0]]).action.length = 1 ∧
      (wRBM.sample id (fun _ _ => 1) [[0, 0, 0]]).next_state.length = 1 ∧
      (wRBM.sample id (fun _ _ => 1) [[0, 0, 0]]).reward.length = 1 ∧
      (wRBM.sample id (fun _ _ => 1) [[0, 0, 0]]).done.length = 1) ∧
    ((∀ r ∈ (wRBM.sample id (fun _ _ => 1) [[0, 0, 0]]).state, r.length = 3) ∧
      (∀ r ∈ (wRBM.sample id (fun _ _ => 1) [[0, 0, 0]]).action,
        r.length = 1) ∧
      (∀ r ∈ (wRBM.sample id (fun _ _ => 1) [[0, 0, 0]]).next_state,
        r.length = 3) ∧
      (∀ r ∈ (wRBM.sample id (fun _ _ => 1) [[0, 0, 0]]).reward,
        r.length = 1) ∧
      (∀ r ∈ (wRBM.sample id (fun _ _ => 1) [[0, 0, 0]]).done,
        r.length = 1)) ∧
    3 + 1 + 3 + 1 + 1 = wRBM.feature_size ∧
    ((wVAE.sample id vaeZ1).state.length = vaeZ1.length ∧
      (wVAE.sample id vaeZ1).action.length =
        vaeZ1.length ∧
      (wVAE.sample id vaeZ1).next_state.length =
        vaeZ1.length ∧
      (wVAE.sample id vaeZ1).reward.length =
        vaeZ1.length ∧
      (wVAE.sample id vaeZ1).done.length =
        vaeZ1.length) ∧
    ((∀ r ∈ (wVAE.sample id vaeZ1).state, r.length = 3) ∧
      (∀ r ∈ (wVAE.sample id vaeZ1).action, r.length = 1) ∧
      (∀ r ∈ (wVAE.sample id vaeZ1).next_state, r.length = 3) ∧
      (∀ r ∈ (wVAE.sample id vaeZ1).reward, r.length = 1) ∧
      (∀ r ∈ (wVAE.sample id vaeZ1).done, r.length = 1)) ∧
    3 + 1 + 3 + 1 + 1 = wVAE.feature_size :=
  C7_sample_partition_widths wRBM wVAE id id (fun _ _ => 1) [[0, 0, 0]]
    vaeZ1 (by decide) (by decide) (by decide) (by decide) (by decide)

/-! ## Construction (C8) -/

/-- A deliberately malformed RBM construction: action bounds reversed
(`high = 1 ≤ 2 = low`), state bounds reversed, and shapes `(2, 5)` whose
feature width `2 + 2·5 + 2 = 14` does not match `n_vis = 9`. -/
def badRBM : RBM_GR :=
  RBM_GR.init 2 5 2 1 (fun _ => 5) (fun _ => 0) 9 3 1
    (fun _ => 0) (fun _ => 0) (fun _ _ => 0)

/-- A deliberately malformed VAE construction: action bounds reversed. -/
def badVAE : GenerativeReplay :=
  GenerativeReplay.init 1 3 2 1 (fun _ => 5) (fun _ => 0) 5 3
    (fun _ _ => 0) (fun _ => 0) (fun _ _ => 0) (fun _ => 0)
    (fun _ _ => 0) (fun _ => 0) (fun _ _ => 0) (fun _ => 0)

/-- **C8, counterexample.**  The claim says malformed bounds
(`high ≤ low`) or a feature width that does not match the model's input
width are rejected eagerly at construction with an error.  They are not:
neither `__init__` (`src/utils.py` lines 61-87 and 172-189) validates
anything, so construction completes normally, yielding a model that
stores the malformed configuration. -/
theorem C8_claim_counterexample :
    badRBM.action_high ≤ badRBM.action_low ∧
      badRBM.state_high 0 ≤ badRBM.state_low 0 ∧
      badRBM.feature_size ≠ badRBM.nVis ∧
      badVAE.action_high ≤ badVAE.action_low := by
  refine ⟨?_, ?_, ?_, ?_⟩ <;>
    norm_num [badRBM, badVAE, RBM_GR.init, GenerativeReplay.init]

/-- **C8, amended.**  Construction performs no validation: both
constructors accept malformed bounds (`high ≤ low`) and, for the RBM, a
feature width differing from the visible width `n_vis`, and store every
argument unchanged; errors surface only later (e.g. a zero division span
inside `normalise`), never at construction time. -/
theorem C8_no_construction_validation
    (as ss : ℕ) (al ah : ℚ) (sl sh : Fin 3 → ℚ) (nv nh kk : ℕ)
    (vb0 : Fin nv → ℚ) (hb0 : Fin nh → ℚ) (W0 : Fin nh → Fin nv → ℚ)
    (M : RBM_GR)
    (hM : M = RBM_GR.init as ss al ah sl sh nv nh kk vb0 hb0 W0)
    (gas gss : ℕ) (gal gah : ℚ) (gsl gsh : Fin 3 → ℚ) (hd zd : ℕ)
    (e1W0 : Fin hd → Fin (gas + 2 * gss + 2) → ℚ) (e1b0 : Fin hd → ℚ)
    (e2W0 : Fin (zd * 2) → Fin hd → ℚ) (e2b0 : Fin (zd * 2) → ℚ)
    (d1W0 : Fin hd → Fin zd → ℚ) (d1b0 : Fin hd → ℚ)
    (d2W0 : Fin (gas + 2 * gss + 2) → Fin hd → ℚ)
    (d2b0 : Fin (gas + 2 * gss + 2) → ℚ) (G : GenerativeReplay)
    (hG : G = GenerativeReplay.init gas gss gal gah gsl gsh hd zd
      e1W0 e1b0 e2W0 e2b0 d1W0 d1b0 d2W0 d2b0)
    (hbad : ah ≤ al) (hmis : as + 2 * ss + 2 ≠ nv) (hgbad : gah ≤ gal) :
    M.action_low = al ∧ M.action_high = ah ∧
      M.action_high ≤ M.action_low ∧
      M.state_low = sl ∧ M.state_high = sh ∧
      M.feature_size = as + 2 * ss + 2 ∧ M.nVis = nv ∧
      M.feature_size ≠ M.nVis ∧
      M.reward_low = -20 ∧ M.reward_high = 0 ∧
      G.action_low = gal ∧ G.action_high = gah ∧
      G.action_high ≤ G.action_low ∧
      G.feature_size = gas + 2 * gss + 2 := by
  subst hM
  subst hG
  exact ⟨rfl, rfl, hbad, rfl, rfl, rfl, rfl, hmis, rfl, rfl, rfl, rfl,
    hgbad, rfl⟩

/-- Witness for the amended C8 at the malformed concrete constructions. -/
theorem C8_no_construction_validation_witness :
    badRBM.action_low = 2 ∧ badRBM.action_high = 1 ∧
      badRBM.action_high ≤ badRBM.action_low ∧
      badRBM.state_low = (fun _ => 5) ∧ badRBM.state_high = (fun _ => 0) ∧
      badRBM.feature_size = 2 + 2 * 5 + 2 ∧ badRBM.nVis = 9 ∧
      badRBM.feature_size ≠ badRBM.nVis ∧
      badRBM.reward_low = -20 ∧ badRBM.reward_high = 0 ∧
      badVAE.action_low = 2 ∧ badVAE.action_high = 1 ∧
      badVAE.action_high ≤ badVAE.action_low ∧
      badVAE.feature_size = 1 + 2 * 3 + 2 :=
  C8_no_construction_validation 2 5 2 1 (fun _ => 5) (fun _ => 0) 9 3 1
    (fun _ => 0) (fun _ => 0) (fun _ _ => 0) badRBM rfl
    1 3 2 1 (fun _ => 5) (fun _ => 0) 5 3
    (fun _ _ => 0) (fun _ => 0) (fun _ _ => 0) (fun _ => 0)
    (fun _ _ => 0) (fun _ => 0) (fun _ _ => 0) (fun _ => 0) badVAE rfl
    (by norm_num) (by decide) (by norm_num)

/-! ## C10: RBM samples are per-field extremes -/

theorem bern_eq_zero_or_one (u p : ℚ) : bern u p = 0 ∨ bern u p = 1 := by
  unfold bern
  split
  · right; rfl
  · left; rfl

/-- Every entry of a `hidden_to_visible` output row is a Bernoulli draw,
hence `0` or `1`. -/
theorem RBM_GR.hidden_to_visible_entries (m : RBM_GR) (sigmoidF : ℚ → ℚ)
    (coins : ℕ → ℕ → ℚ) (h : Mat) :
    ∀ r ∈ m.hidden_to_visible sigmoidF coins h, ∀ x ∈ r,
      x = 0 ∨ x = 1 := by
  intro r hr x hx
  simp only [RBM_GR.hidden_to_visible, List.mem_map] at hr
  obtain ⟨p, _, rfl⟩ := hr
  simp only [List.mem_map] at hx
  obtain ⟨j, _, rfl⟩ := hx
  exact bern_eq_zero_or_one _ _

theorem mapCols_getD (f : ℕ → ℚ → ℚ) :
    ∀ (xs : Row) (j0 i : ℕ), i < xs.length →
      (mapCols f j0 xs).getD i 0 = f (j0 + i) (xs.getD i 0)
  | [], _, i, hi => absurd hi (by simp)
  | x :: xs, j0, 0, _ => by simp [mapCols]
  | x :: xs, j0, i + 1, hi => by
    have := mapCols_getD f xs (j0 + 1) i (by simpa using hi)
    simpa [mapCols, Nat.add_assoc, Nat.add_comm 1 i] using this

theorem row_getD_take (l : Row) (n i : ℕ) (hi : i < n) (hl : i < l.length) :
    (l.take n).getD i 0 = l.getD i 0 := by
  rw [List.getD_eq_getElem _ 0 (by simp [List.length_take]; omega),
    List.getD_eq_getElem _ 0 hl, List.getElem_take]

theorem row_getD_drop (l : Row) (n i : ℕ) (hl : n + i < l.length) :
    (l.drop n).getD i 0 = l.getD (n + i) 0 := by
  rw [List.getD_eq_getElem _ 0 (by simp [List.length_drop]; omega),
    List.getD_eq_getElem _ 0 hl, List.getElem_drop]

/-- **C10.**  Every value `RBM_GR.sample` returns is one of exactly two
per-field extremes: each `state`/`next_state` component equals its
configured low or high bound, the `action` equals `action_low` or
`action_high`, the `reward` equals `-20.0` or `0.0`, and the `done` flag
equals `0` or `1` — because `hidden_to_visible` produces Bernoulli `{0,1}`
samples and `descale` applies a per-column affine map, leaving column 8
untouched. -/
theorem C10_sample_extremes (al ah : ℚ) (sl sh : Fin 3 → ℚ) (nh kk : ℕ)
    (vb0 : Fin 9 → ℚ) (hb0 : Fin nh → ℚ) (W0 : Fin nh → Fin 9 → ℚ)
    (sigmoidF : ℚ → ℚ) (coins : ℕ → ℕ → ℚ) (noise : Mat) (m : RBM_GR)
    (hm : m = RBM_GR.init 1 3 al ah sl sh 9 nh kk vb0 hb0 W0) :
    (∀ r ∈ (m.sample sigmoidF coins noise).state, ∀ j : Fin 3,
      r.getD j.val 0 = sl j ∨ r.getD j.val 0 = sh j) ∧
      (∀ r ∈ (m.sample sigmoidF coins noise).action,
        r.getD 0 0 = al ∨ r.getD 0 0 = ah) ∧
      (∀ r ∈ (m.sample sigmoidF coins noise).next_state, ∀ j : Fin 3,
        r.getD j.val 0 = sl j ∨ r.getD j.val 0 = sh j) ∧
      (∀ r ∈ (m.sample sigmoidF coins noise).reward,
        r.getD 0 0 = -20 ∨ r.getD 0 0 = 0) ∧
      (∀ r ∈ (m.sample sigmoidF coins noise).done,
        r.getD 0 0 = 0 ∨ r.getD 0 0 = 1) := by
  have hsl : m.state_low = sl := by rw [hm]; rfl
  have hsh : m.state_high = sh := by rw [hm]; rfl
  have hal : m.action_low = al := by rw [hm]; rfl
  have hah : m.action_high = ah := by rw [hm]; rfl
  have hrl : m.reward_low = -20 := by rw [hm]; rfl
  have hrh : m.reward_high = 0 := by rw [hm]; rfl
  have hnv : m.nVis = 9 := by rw [hm]; rfl
  -- every row of the descaled result, at every column `i < 9`, is the
  -- per-column affine image of a Bernoulli bit
  have hkey : ∀ res ∈ m.descale (m.hidden_to_visible sigmoidF coins noise),
      res.length = 9 ∧ ∀ i, i < 9 →
        (res.getD i 0 = dcolRBM m i 0 ∨ res.getD i 0 = dcolRBM m i 1) := by
    intro res hres
    simp only [RBM_GR.descale, List.mem_map] at hres
    obtain ⟨r₀, hr₀, rfl⟩ := hres
    have hlen : r₀.length = 9 := by
      rw [m.hidden_to_visible_row_length sigmoidF coins noise r₀ hr₀, hnv]
    refine ⟨by rw [RBM_GR.descaleRow, mapCols_length, hlen], ?_⟩
    intro i hi
    rw [RBM_GR.descaleRow, mapCols_getD _ r₀ 0 i (by omega), Nat.zero_add]
    rcases m.hidden_to_visible_entries sigmoidF coins noise r₀ hr₀
        (r₀.getD i 0)
        (by rw [List.getD_eq_getElem r₀ 0 (by omega)]
            exact List.getElem_mem _) with h | h
    · left; rw [h]
    · right; rw [h]
  refine ⟨?_, ?_, ?_, ?_, ?_⟩
  · intro r hr j
    simp only [RBM_GR.sample, splitResult, List.mem_map] at hr
    obtain ⟨res, hres, rfl⟩ := hr
    obtain ⟨hlen, hcols⟩ := hkey res hres
    have hj : j.val < 3 := j.isLt
    rw [row_getD_take res 3 j.val hj (by omega)]
    rcases hcols j.val (by omega) with h | h <;> rw [h] <;> fin_cases j <;>
      simp [dcolRBM, hsl, hsh]
  · intro r hr
    simp only [RBM_GR.sample, splitResult, List.mem_map] at hr
    obtain ⟨res, hres, rfl⟩ := hr
    obtain ⟨hlen, hcols⟩ := hkey res hres
    show res.getD 3 0 = al ∨ res.getD 3 0 = ah
    rcases hcols 3 (by omega) with h | h <;> rw [h] <;>
      simp [dcolRBM, hal, hah]
  · intro r hr j
    simp only [RBM_GR.sample, splitResult, List.mem_map] at hr
    obtain ⟨res, hres, rfl⟩ := hr
    obtain ⟨hlen, hcols⟩ := hkey res hres
    have hj : j.val < 3 := j.isLt
    rw [row_getD_take (res.drop 4) 3 j.val hj
        (by simp [List.length_drop, hlen]; omega),
      row_getD_drop res 4 j.val (by omega)]
    rcases hcols (4 + j.val) (by omega) with h | h <;> rw [h] <;>
      fin_cases j <;> simp [dcolRBM, hsl, hsh]
  · intro r hr
    simp only [RBM_GR.sample, splitResult, List.mem_map] at hr
    obtain ⟨res, hres, rfl⟩ := hr
    obtain ⟨hlen, hcols⟩ := hkey res hres
    show res.getD 7 0 = -20 ∨ res.getD 7 0 = 0
    rcases hcols 7 (by omega) with h | h <;> rw [h] <;>
      simp [dcolRBM, hrl, hrh]
  · intro r hr
    simp only [RBM_GR.sample, splitResult, List.mem_map] at hr
    obtain ⟨res, hres, rfl⟩ := hr
    obtain ⟨hlen, hcols⟩ := hkey res hres
    show res.getD 8 0 = 0 ∨ res.getD 8 0 = 1
    rcases hcols 8 (by omega) with h | h <;> rw [h] <;> simp [dcolRBM]

/-- Witness for C10: a concrete one-row sample of the `[0,1]`-bounded
model; every returned field is one of its two extremes. -/
theorem C10_sample_extremes_witness :
    (((wRBM.sample (fun _ => 1 / 2) (fun _ _ => 1) [[0, 0, 0]]).state.getD
          0 []).getD 0 0 = 0 ∨
      ((wRBM.sample (fun _ => 1 / 2) (fun _ _ => 1) [[0, 0, 0]]).state.getD
          0 []).getD 0 0 = 1) ∧
    (((wRBM.sample (fun _ => 1 / 2) (fun _ _ => 1) [[0, 0, 0]]).action.getD
          0 []).getD 0 0 = 0 ∨
      ((wRBM.sample (fun _ => 1 / 2) (fun _ _ => 1) [[0, 0, 0]]).action.getD
          0 []).getD 0 0 = 1) ∧
    (((wRBM.sample (fun _ => 1 / 2) (fun _ _ => 1)
            [[0, 0, 0]]).next_state.getD 0 []).getD 0 0 = 0 ∨
      ((wRBM.sample (fun _ => 1 / 2) (fun _ _ => 1)
            [[0, 0, 0]]).next_state.getD 0 []).getD 0 0 = 1) ∧
    (((wRBM.sample (fun _ => 1 / 2) (fun _ _ => 1) [[0, 0, 0]]).reward.getD
          0 []).getD 0 0 = -20 ∨
      ((wRBM.sample (fun _ => 1 / 2) (fun _ _ => 1) [[0, 0, 0]]).reward.getD
          0 []).getD 0 0 = 0) ∧
    (((wRBM.sample (fun _ => 1 / 2) (fun _ _ => 1) [[0, 0, 0]]).done.getD
          0 []).getD 0 0 = 0 ∨
      ((wRBM.sample (fun _ => 1 / 2) (fun _ _ => 1) [[0, 0, 0]]).done.getD
          0 []).getD 0 0 = 1) := by
  have h := C10_sample_extremes 0 1 (fun _ => 0) (fun _ => 1) 3 1
    (fun _ => 0) (fun _ => 0) (fun _ _ => 0) (fun _ => 1 / 2)
    (fun _ _ => 1) [[0, 0, 0]] wRBM rfl
  have hmem : ∀ X : Mat, X.length = 1 → X.getD 0 [] ∈ X := by
    intro X hX
    rw [List.getD_eq_getElem X [] (by omega)]
    exact List.getElem_mem _
  exact ⟨h.1 _ (hmem _ (by simp [RBM_GR.sample, splitResult, RBM_GR.descale,
      RBM_GR.hidden_to_visible])) 0,
    h.2.1 _ (hmem _ (by simp [RBM_GR.sample, splitResult, RBM_GR.descale,
      RBM_GR.hidden_to_visible])),
    h.2.2.1 _ (hmem _ (by simp [RBM_GR.sample, splitResult, RBM_GR.descale,
      RBM_GR.hidden_to_visible])) 0,
    h.2.2.2.1 _ (hmem _ (by simp [RBM_GR.sample, splitResult,
      RBM_GR.descale, RBM_GR.hidden_to_visible])),
    h.2.2.2.2 _ (hmem _ (by simp [RBM_GR.sample, splitResult,
      RBM_GR.descale, RBM_GR.hidden_to_visible]))⟩
